import Mathlib

/-!
Verification development for the copilot-team Story/Task persistence core.

The definitions below are a shallow embedding of:
  * `src/copilot_team/core/models.py` (Story, Task, TaskChecklistItem,
    status vocabulary, ordering),
  * `src/copilot_team/backends/sqlite_task_store_backend.py`
    (SqliteTaskStoreBackend: row conversion, upsert, lookups, filtered
    listing; the SQLite tables are modelled as ordered row lists, rowid
    enumeration order being insertion order with in-place updates),
  * `src/copilot_team/core/interfaces.py` (the abstract backend and its
    derived default method `list_non_completed_stories`),
  * `src/copilot_team/core/services.py` (TaskService and ChatService).

Python runtime objects may carry any string in their `status` slot
(pydantic validates the `Literal` status only when an entity is
constructed from a data dict; `model_copy(update=...)` performs no
validation), so entity `status` fields are plain strings here and the
pydantic validation is explicit in the construction functions.
-/

namespace CopilotTeam

deriving instance DecidableEq for Except

/-- Error kinds of the core: `storyNotFound` / `taskNotFound` embed
`StoryNotFoundError` / `TaskNotFoundError` (raised in
`sqlite_task_store_backend.py`; their class definitions live in the
repository's `core.exceptions` module, absent from this snapshot) and
`validationError` embeds pydantic's construction-time `ValidationError`. -/
inductive Err where
  | storyNotFound (id : String)
  | taskNotFound (id : String)
  | validationError
  deriving DecidableEq, Repr

/-- Status priority lookup of `models.py` (`Story.priority` /
`Task.priority`): the dict `{pending: 0, planning: 1, ready: 2,
in_progress: 3, completed: 4}`; `none` models the `KeyError` a lookup of
a string outside the enumeration would raise. -/
def status_priority (s : String) : Option Nat :=
  if s = "pending" then some 0
  else if s = "planning" then some 1
  else if s = "ready" then some 2
  else if s = "in_progress" then some 3
  else if s = "completed" then some 4
  else none

/-- Item de checklist (`TaskChecklistItem` in `models.py`). -/
structure TaskChecklistItem where
  description : String
  completed : Bool
  deriving DecidableEq, Repr

/-- Runtime `Story` object (`models.py`). `status` is the raw string slot;
pydantic restricts it to the `StoryStatus` literal only at construction. -/
structure Story where
  id : String
  name : String
  description : String
  status : String
  deriving DecidableEq, Repr

/-- Runtime `Task` object (`models.py`). -/
structure Task where
  id : String
  name : String
  description : String
  agent : Option String
  status : String
  repository_name : Option String
  branch_name : Option String
  story_id : Option String
  checklist : List TaskChecklistItem
  deriving DecidableEq, Repr

/-- `Story.__lt__`: equal statuses compare by name, otherwise by the
status priorities; `none` models the `KeyError` raised when a status
outside the enumeration reaches the priority dict. -/
def Story.lt (a b : Story) : Option Bool :=
  if a.status = b.status then some (decide (a.name < b.name))
  else do
    let p ← status_priority a.status
    let q ← status_priority b.status
    pure (decide (p < q))

/-- `Task.__lt__` (same rule as `Story.__lt__`). -/
def Task.lt (a b : Task) : Option Bool :=
  if a.status = b.status then some (decide (a.name < b.name))
  else do
    let p ← status_priority a.status
    let q ← status_priority b.status
    pure (decide (p < q))

/-- Boolean comparison view of `Story.lt` used when sorting a list of
stories whose statuses are all valid (Python's `sorted` consults
`__lt__`). -/
def Story.ltBool (a b : Story) : Bool :=
  (Story.lt a b).getD false

/-- Insertion step of a stable comparison sort driven by `__lt__`. -/
def insertStory (x : Story) : List Story → List Story
  | [] => [x]
  | y :: ys => if Story.ltBool x y then x :: y :: ys else y :: insertStory x ys

/-- Comparison sort of stories as performed by Python's `sorted` with
`Story.__lt__` (any comparison sort agrees on inputs whose pairwise
comparisons are strict). -/
def sortStories (l : List Story) : List Story :=
  l.foldr insertStory []

/-- Partial-update payload for `update_story` (`model_copy(update=data)`);
each field is `some v` when the key is present in the dict. The `id` key
is not part of an update payload: the tool surface pops `id` from the
argument dict before passing the remainder as the payload. -/
structure StoryUpdate where
  name? : Option String := none
  description? : Option String := none
  status? : Option String := none
  deriving DecidableEq, Repr

/-- `Story.model_copy(update=data)`: overlay the present fields, no
validation (pydantic `model_copy` skips validators). -/
def Story.model_copy (e : Story) (d : StoryUpdate) : Story :=
  { id := e.id
    name := d.name?.getD e.name
    description := d.description?.getD e.description
    status := d.status?.getD e.status }

/-- Partial-update payload for `update_task`. Nullable fields use
`Option (Option v)`: the outer layer is key presence, the inner layer the
nullable value. -/
structure TaskUpdate where
  name? : Option String := none
  description? : Option String := none
  status? : Option String := none
  agent? : Option (Option String) := none
  repository_name? : Option (Option String) := none
  branch_name? : Option (Option String) := none
  story_id? : Option (Option String) := none
  checklist? : Option (List TaskChecklistItem) := none
  deriving DecidableEq, Repr

/-- `Task.model_copy(update=data)`: overlay without validation. -/
def Task.model_copy (e : Task) (d : TaskUpdate) : Task :=
  { id := e.id
    name := d.name?.getD e.name
    description := d.description?.getD e.description
    agent := d.agent?.getD e.agent
    status := d.status?.getD e.status
    repository_name := d.repository_name?.getD e.repository_name
    branch_name := d.branch_name?.getD e.branch_name
    story_id := d.story_id?.getD e.story_id
    checklist := d.checklist?.getD e.checklist }

/-- A task with its dispatch-context fields reset to the model defaults:
the effect of a round trip through the `task` table, which has no
`agent`, `repository_name` or `branch_name` columns. -/
def Task.drop_dispatch (t : Task) : Task :=
  { t with agent := none, repository_name := none, branch_name := none }

/-- Creation dict for `Story(**data)`. -/
structure StoryCreateData where
  id? : Option String := none
  name? : Option String := none
  description? : Option String := none
  status? : Option String := none
  deriving DecidableEq, Repr

/-- `Story(**data)`: pydantic validation — `name` and `description` are
required, `status` defaults to `"pending"` and must belong to the
`StoryStatus` literal, `id` defaults to a fresh uuid4 string (the drawn
uuid is passed in as `genId`). -/
def Story.construct (d : StoryCreateData) (genId : String) : Except Err Story :=
  match d.name?, d.description? with
  | some nm, some ds =>
    let st := d.status?.getD "pending"
    if (status_priority st).isSome then
      .ok { id := d.id?.getD genId, name := nm, description := ds, status := st }
    else
      .error .validationError
  | _, _ => .error .validationError

/-- Creation dict for `Task(**data)`. -/
structure TaskCreateData where
  id? : Option String := none
  name? : Option String := none
  description? : Option String := none
  agent? : Option String := none
  status? : Option String := none
  repository_name? : Option String := none
  branch_name? : Option String := none
  story_id? : Option String := none
  checklist? : Option (List TaskChecklistItem) := none
  deriving DecidableEq, Repr

/-- `Task(**data)`: pydantic validation with the model's defaults
(`status="pending"`, nullable fields `None`, `checklist=[]`). -/
def Task.construct (d : TaskCreateData) (genId : String) : Except Err Task :=
  match d.name?, d.description? with
  | some nm, some ds =>
    let st := d.status?.getD "pending"
    if (status_priority st).isSome then
      .ok { id := d.id?.getD genId
            name := nm
            description := ds
            agent := d.agent?
            status := st
            repository_name := d.repository_name?
            branch_name := d.branch_name?
            story_id := d.story_id?
            checklist := d.checklist?.getD [] }
    else
      .error .validationError
  | _, _ => .error .validationError

/-- Row of the `story` table (`CREATE TABLE story` in
`sqlite_task_store_backend.py`): all four columns are `TEXT NOT NULL`
(`id` is the primary key). -/
structure StoryRow where
  id : String
  name : String
  description : String
  status : String
  deriving DecidableEq, Repr

/-- Row of the `task` table: `checklist` is a nullable TEXT column holding
the JSON-serialized checklist (modelled as the structured document it
encodes; `json.dumps`/`json.loads` on this fixed shape are mutually
inverse), `story_id` is a nullable foreign key. The table has no columns
for the Task model's `agent`, `repository_name` or `branch_name`. -/
structure TaskRow where
  id : String
  name : String
  status : String
  description : String
  checklist : Option (List TaskChecklistItem)
  story_id : Option String
  deriving DecidableEq, Repr

/-- SQLite database state: the two tables as row lists in rowid
(backend enumeration) order. -/
structure SqliteState where
  stories : List StoryRow
  tasks : List TaskRow
  deriving DecidableEq, Repr

/-- `INSERT ... ON CONFLICT(id) DO UPDATE`, generically over the row's
primary-key projection: an existing row with the same key is updated in
place (rowid and hence enumeration position preserved), otherwise the new
row is appended. -/
def upsertBy {α : Type} (key : α → String) (rows : List α) (r : α) : List α :=
  if rows.any (fun x => key x = key r) then
    rows.map (fun x => if key x = key r then r else x)
  else
    rows ++ [r]

/-- Upsert on the `story` table. -/
def upsertStoryRow (rows : List StoryRow) (r : StoryRow) : List StoryRow :=
  upsertBy StoryRow.id rows r

/-- Upsert on the `task` table. -/
def upsertTaskRow (rows : List TaskRow) (r : TaskRow) : List TaskRow :=
  upsertBy TaskRow.id rows r

/-- The Story a valid `story` row converts to
(`SqliteTaskStoreBackend._row_to_story` when pydantic validation
succeeds). -/
def story_of_row (r : StoryRow) : Story :=
  { id := r.id, name := r.name, description := r.description, status := r.status }

/-- `SqliteTaskStoreBackend._row_to_story`: constructs
`Story(id=..., name=..., description=..., status=...)`, which pydantic
validates — a row whose status is outside the enumeration raises
`ValidationError`. -/
def row_to_story (r : StoryRow) : Except Err Story :=
  if (status_priority r.status).isSome then .ok (story_of_row r)
  else .error .validationError

/-- The Task a valid `task` row converts to: the columns of the row, with
`agent`, `repository_name` and `branch_name` left at their model default
`None` (the table has no such columns) and a NULL checklist read as the
empty list. -/
def task_of_row (r : TaskRow) : Task :=
  { id := r.id
    name := r.name
    description := r.description
    agent := none
    status := r.status
    repository_name := none
    branch_name := none
    story_id := r.story_id
    checklist := r.checklist.getD [] }

/-- `SqliteTaskStoreBackend._row_to_task` (pydantic-validated like
`_row_to_story`; `if row["checklist"]:` parses the JSON text when
non-NULL — a NULL column and a serialized empty list both yield `[]`). -/
def row_to_task (r : TaskRow) : Except Err Task :=
  if (status_priority r.status).isSome then .ok (task_of_row r)
  else .error .validationError

/-- `SqliteTaskStoreBackend.put_story`: upsert of the story's four
persisted columns. -/
def SqliteState.put_story (st : SqliteState) (story : Story) : SqliteState :=
  { st with
    stories := upsertStoryRow st.stories
      { id := story.id, name := story.name
        description := story.description, status := story.status } }

/-- `SqliteTaskStoreBackend.get_story`: `SELECT * FROM story WHERE id = ?`
then `fetchone`; a missing row raises `StoryNotFoundError`. -/
def SqliteState.get_story (st : SqliteState) (id : String) : Except Err Story :=
  match st.stories.find? (fun r => r.id = id) with
  | none => .error (.storyNotFound id)
  | some r => row_to_story r

/-- Left-to-right conversion of fetched story rows, as the list
comprehension `[self._row_to_story(row) for row in rows]` performs it
(the first invalid row raises). -/
def rows_to_stories : List StoryRow → Except Err (List Story)
  | [] => .ok []
  | r :: rest => do
    let s ← row_to_story r
    let ss ← rows_to_stories rest
    .ok (s :: ss)

/-- `SqliteTaskStoreBackend.list_stories`: `if status:` — the filter is
applied only when the argument is a non-empty (truthy) string. -/
def SqliteState.list_stories (st : SqliteState) (status : Option String) :
    Except Err (List Story) :=
  rows_to_stories
    (match status with
     | some s => if s = "" then st.stories else st.stories.filter (fun r => r.status = s)
     | none => st.stories)

/-- `SqliteTaskStoreBackend.put_task`: upsert of the six persisted columns
(`id, name, status, description, checklist, story_id`); the runtime
checklist list is always serialized (never NULL on write), and the task's
`agent`, `repository_name`, `branch_name` do not appear in the INSERT. -/
def SqliteState.put_task (st : SqliteState) (task : Task) : SqliteState :=
  { st with
    tasks := upsertTaskRow st.tasks
      { id := task.id, name := task.name, status := task.status
        description := task.description
        checklist := some task.checklist, story_id := task.story_id } }

/-- `SqliteTaskStoreBackend.get_task` (via `_get_task_by_id`): a missing
row raises `TaskNotFoundError`. -/
def SqliteState.get_task (st : SqliteState) (id : String) : Except Err Task :=
  match st.tasks.find? (fun r => r.id = id) with
  | none => .error (.taskNotFound id)
  | some r => row_to_task r

/-- Row-level WHERE clause built by `SqliteTaskStoreBackend.list_tasks`:
each condition is added only when its argument is truthy (non-empty
string), and a NULL `story_id` column never satisfies `story_id = ?`. -/
def taskFilterCond (status story_id : Option String) (r : TaskRow) : Bool :=
  (match status with
   | some s => if s = "" then true else r.status = s
   | none => true)
  && (match story_id with
   | some x => if x = "" then true else r.story_id = some x
   | none => true)

/-- Left-to-right conversion of fetched task rows
(`[self._row_to_task(row) for row in rows]`). -/
def rows_to_tasks : List TaskRow → Except Err (List Task)
  | [] => .ok []
  | r :: rest => do
    let t ← row_to_task r
    let ts ← rows_to_tasks rest
    .ok (t :: ts)

/-- `SqliteTaskStoreBackend.list_tasks`. -/
def SqliteState.list_tasks (st : SqliteState) (status story_id : Option String) :
    Except Err (List Task) :=
  rows_to_tasks (st.tasks.filter (taskFilterCond status story_id))

/-- The abstract store contract (`BaseTaskStoreBackend` in
`interfaces.py`), over a state type: `TaskService` is written against
this interface. -/
structure BaseTaskStoreBackend (σ : Type) where
  put_story : σ → Story → σ
  get_story : σ → String → Except Err Story
  list_stories : σ → Option String → Except Err (List Story)
  put_task : σ → Task → σ
  get_task : σ → String → Except Err Task
  list_tasks : σ → Option String → Option String → Except Err (List Task)

/-- The production backend: `SqliteTaskStoreBackend` as an instance of the
store contract. -/
def sqliteBackend : BaseTaskStoreBackend SqliteState :=
  { put_story := SqliteState.put_story
    get_story := SqliteState.get_story
    list_stories := SqliteState.list_stories
    put_task := SqliteState.put_task
    get_task := SqliteState.get_task
    list_tasks := SqliteState.list_tasks }

/-- Loop body of `BaseTaskStoreBackend.list_non_completed_stories`:
`stories.extend(await self.list_stories(status=status))` over the given
status list. -/
def list_non_completed_loop {σ : Type} (B : BaseTaskStoreBackend σ) (st : σ) :
    List String → List Story → Except Err (List Story)
  | [], acc => .ok acc
  | s :: rest, acc => do
    let part ← B.list_stories st (some s)
    list_non_completed_loop B st rest (acc ++ part)

/-- `BaseTaskStoreBackend.list_non_completed_stories` (default method in
`interfaces.py`): iterates `status_search = ["in_progress", "ready",
"planning", "pending"]`, extending the accumulator with each
`list_stories(status=...)` result. -/
def list_non_completed_stories {σ : Type} (B : BaseTaskStoreBackend σ) (st : σ) :
    Except Err (List Story) :=
  list_non_completed_loop B st ["in_progress", "ready", "planning", "pending"] []

/-- The spec's reading of the derived listing, for comparison with the
code: concatenation of `list_stories(status)` for each non-terminal
status in enumeration order (`pending, planning, ready, in_progress`). -/
def list_non_completed_stories_spec {σ : Type} (B : BaseTaskStoreBackend σ)
    (st : σ) : Except Err (List Story) :=
  list_non_completed_loop B st ["pending", "planning", "ready", "in_progress"] []

namespace TaskService

/-- `TaskService.create_story`: `Story(**data)` then `put_story`; `genId`
is the uuid4 string drawn by the model's `id` default factory. -/
def create_story {σ : Type} (B : BaseTaskStoreBackend σ) (st : σ)
    (data : StoryCreateData) (genId : String) : Except Err (Story × σ) := do
  let story ← Story.construct data genId
  .ok (story, B.put_story st story)

/-- `TaskService.update_story`: fetch existing, `model_copy(update=data)`,
persist, return the merged story. -/
def update_story {σ : Type} (B : BaseTaskStoreBackend σ) (st : σ)
    (story_id : String) (data : StoryUpdate) : Except Err (Story × σ) := do
  let existing ← B.get_story st story_id
  let updated := existing.model_copy data
  .ok (updated, B.put_story st updated)

/-- `TaskService.create_task`. -/
def create_task {σ : Type} (B : BaseTaskStoreBackend σ) (st : σ)
    (data : TaskCreateData) (genId : String) : Except Err (Task × σ) := do
  let task ← Task.construct data genId
  .ok (task, B.put_task st task)

/-- `TaskService.update_task`. -/
def update_task {σ : Type} (B : BaseTaskStoreBackend σ) (st : σ)
    (task_id : String) (data : TaskUpdate) : Except Err (Task × σ) := do
  let existing ← B.get_task st task_id
  let updated := existing.model_copy data
  .ok (updated, B.put_task st updated)

/-- `TaskService.list_unassigned_tasks`: fetch all tasks, keep those whose
`story_id` is `None`. -/
def list_unassigned_tasks {σ : Type} (B : BaseTaskStoreBackend σ) (st : σ) :
    Except Err (List Task) := do
  let all ← B.list_tasks st none none
  .ok (all.filter (fun t => t.story_id.isNone))

end TaskService

/-- `ChatService` state: the processing flag and the message deque. -/
structure ChatServiceState where
  processing : Bool
  messages : List String
  deriving DecidableEq, Repr

/-- Freshly constructed `ChatService`. -/
def ChatServiceState.init : ChatServiceState :=
  { processing := false, messages := [] }

/-- `ChatService.enqueue_message`: records whether a message was already
pending or being processed, appends, and returns that indicator. -/
def ChatServiceState.enqueue_message (st : ChatServiceState) (message : String) :
    Bool × ChatServiceState :=
  (st.processing || !st.messages.isEmpty,
   { st with messages := st.messages ++ [message] })

/-- `ChatService.next_message`: pops the oldest queued message, or returns
`None` when the queue is empty. -/
def ChatServiceState.next_message (st : ChatServiceState) :
    Option String × ChatServiceState :=
  match st.messages with
  | [] => (none, st)
  | m :: rest => (some m, { st with messages := rest })

/-! Helper lemmas about the embedded operations. -/

theorem status_priority_inj {s1 s2 : String} {n : Nat}
    (h1 : status_priority s1 = some n) (h2 : status_priority s2 = some n) :
    s1 = s2 := by
  unfold status_priority at h1 h2
  split_ifs at h1 h2 <;> simp_all <;> omega

theorem opt_getD_self {α : Type} (o : Option α) (x : α) :
    o.getD (o.getD x) = o.getD x := by
  cases o <;> rfl

theorem rows_to_stories_ok (rows : List StoryRow)
    (h : ∀ r ∈ rows, (status_priority r.status).isSome) :
    rows_to_stories rows = .ok (rows.map story_of_row) := by
  induction rows with
  | nil => rfl
  | cons a l ih =>
    have ha := h a (by simp)
    have hl := fun r hr => h r (List.mem_cons_of_mem _ hr)
    simp [rows_to_stories, row_to_story, ha, ih hl]
    rfl

theorem rows_to_tasks_ok (rows : List TaskRow)
    (h : ∀ r ∈ rows, (status_priority r.status).isSome) :
    rows_to_tasks rows = .ok (rows.map task_of_row) := by
  induction rows with
  | nil => rfl
  | cons a l ih =>
    have ha := h a (by simp)
    have hl := fun r hr => h r (List.mem_cons_of_mem _ hr)
    simp [rows_to_tasks, row_to_task, ha, ih hl]
    rfl

theorem find?_upsertBy {α : Type} (key : α → String) (rows : List α) (r : α) :
    (upsertBy key rows r).find? (fun x => key x = key r) = some r := by
  induction rows with
  | nil => simp [upsertBy]
  | cons a l ih =>
    by_cases ha : key a = key r
    · simp [upsertBy, List.any_cons, ha, List.find?]
    · by_cases hl : l.any (fun x => key x = key r)
      · have h1 : (a :: l).any (fun x => key x = key r) = true := by
          simp [List.any_cons, hl]
        have ih' : (l.map (fun x => if key x = key r then r else x)).find?
            (fun x => key x = key r) = some r := by
          have := ih
          simpa [upsertBy, hl] using this
        simp [upsertBy, h1, List.find?, ha, ih']
      · have h1 : ¬((a :: l).any (fun x => key x = key r) = true) := by
          simp [List.any_cons, ha, hl]
        have ih' : (l ++ [r]).find? (fun x => key x = key r) = some r := by
          have := ih
          simpa [upsertBy, hl] using this
        simp [upsertBy, h1, List.find?_cons, ha, ih']

theorem upsertBy_replace_replace {α : Type} (key : α → String) (r x : α) :
    (if key (if key x = key r then r else x) = key r then r
     else (if key x = key r then r else x)) =
      (if key x = key r then r else x) := by
  by_cases h : key x = key r <;> simp [h]

theorem upsertBy_idem {α : Type} (key : α → String) (rows : List α) (r : α) :
    upsertBy key (upsertBy key rows r) r = upsertBy key rows r := by
  by_cases h : rows.any (fun x => key x = key r)
  · have hmem : ∃ x ∈ rows, key x = key r := by simpa using h
    obtain ⟨x, hx, hkx⟩ := hmem
    have hr : r ∈ rows.map (fun x => if key x = key r then r else x) := by
      refine List.mem_map.mpr ⟨x, hx, ?_⟩
      simp [hkx]
    have hany : (rows.map (fun x => if key x = key r then r else x)).any
        (fun x => key x = key r) = true := by
      refine List.any_eq_true.mpr ⟨r, hr, by simp⟩
    simp only [upsertBy, h, if_true, hany, List.map_map]
    congr 1
    funext x
    simp only [Function.comp]
    exact upsertBy_replace_replace key r x
  · have hnot : ∀ x ∈ rows, ¬(key x = key r) := by
      intro x hx hk
      exact h (List.any_eq_true.mpr ⟨x, hx, by simp [hk]⟩)
    have hfix : ∀ x ∈ rows,
        (if key x = key r then r else x) = x := by
      intro x hx
      simp [hnot x hx]
    have hany : (rows ++ [r]).any (fun x => key x = key r) = true :=
      List.any_eq_true.mpr ⟨r, by simp, by simp⟩
    have hres : upsertBy key rows r = rows ++ [r] := by
      rw [upsertBy, if_neg h]
    rw [hres, upsertBy, if_pos hany, List.map_append,
      List.map_congr_left hfix]
    simp

theorem get_story_put_story (st : SqliteState) (s : Story)
    (hv : (status_priority s.status).isSome) :
    (st.put_story s).get_story s.id = .ok s := by
  have hfind : List.find? (fun r : StoryRow => r.id = s.id)
      (upsertBy StoryRow.id st.stories
        { id := s.id, name := s.name, description := s.description,
          status := s.status }) =
      some { id := s.id, name := s.name, description := s.description,
             status := s.status } :=
    find?_upsertBy StoryRow.id st.stories
      { id := s.id, name := s.name, description := s.description,
        status := s.status }
  simp only [SqliteState.put_story, SqliteState.get_story, upsertStoryRow]
  rw [hfind]
  simp [row_to_story, hv, story_of_row]

theorem get_task_put_task (st : SqliteState) (t : Task)
    (hv : (status_priority t.status).isSome) :
    (st.put_task t).get_task t.id = .ok t.drop_dispatch := by
  have hfind : List.find? (fun r : TaskRow => r.id = t.id)
      (upsertBy TaskRow.id st.tasks
        { id := t.id, name := t.name, status := t.status,
          description := t.description, checklist := some t.checklist,
          story_id := t.story_id }) =
      some { id := t.id, name := t.name, status := t.status,
             description := t.description, checklist := some t.checklist,
             story_id := t.story_id } :=
    find?_upsertBy TaskRow.id st.tasks
      { id := t.id, name := t.name, status := t.status,
        description := t.description, checklist := some t.checklist,
        story_id := t.story_id }
  simp only [SqliteState.put_task, SqliteState.get_task, upsertTaskRow]
  rw [hfind]
  simp [row_to_task, hv, task_of_row, Task.drop_dispatch]

theorem put_story_put_story (st : SqliteState) (s : Story) :
    (st.put_story s).put_story s = st.put_story s := by
  simp [SqliteState.put_story, upsertStoryRow, upsertBy_idem]

theorem put_task_put_task (st : SqliteState) (t : Task) :
    (st.put_task t).put_task t = st.put_task t := by
  simp [SqliteState.put_task, upsertTaskRow, upsertBy_idem]

theorem get_story_ok_shape (st : SqliteState) (id : String) (e : Story)
    (h : st.get_story id = .ok e) :
    e.id = id ∧ (status_priority e.status).isSome := by
  unfold SqliteState.get_story at h
  cases hfind : st.stories.find? (fun r => r.id = id) with
  | none =>
    simp only [hfind] at h
    exact Except.noConfusion h
  | some r =>
    simp only [hfind] at h
    have hid : r.id = id := by
      have := List.find?_some hfind
      simpa using this
    unfold row_to_story at h
    by_cases hv : (status_priority r.status).isSome
    · rw [if_pos hv] at h
      have he : e = story_of_row r := by
        simpa using h.symm
      subst he
      exact ⟨hid, hv⟩
    · rw [if_neg hv] at h
      exact absurd h (by simp)

theorem get_task_ok_shape (st : SqliteState) (id : String) (e : Task)
    (h : st.get_task id = .ok e) :
    e.id = id ∧ (status_priority e.status).isSome ∧
      e.agent = none ∧ e.repository_name = none ∧ e.branch_name = none := by
  unfold SqliteState.get_task at h
  cases hfind : st.tasks.find? (fun r => r.id = id) with
  | none =>
    simp only [hfind] at h
    exact Except.noConfusion h
  | some r =>
    simp only [hfind] at h
    have hid : r.id = id := by
      have := List.find?_some hfind
      simpa using this
    unfold row_to_task at h
    by_cases hv : (status_priority r.status).isSome
    · rw [if_pos hv] at h
      have he : e = task_of_row r := by
        simpa using h.symm
      subst he
      exact ⟨hid, hv, rfl, rfl, rfl⟩
    · rw [if_neg hv] at h
      exact absurd h (by simp)

theorem story_model_copy_idem (e : Story) (d : StoryUpdate) :
    (e.model_copy d).model_copy d = e.model_copy d := by
  simp [Story.model_copy, opt_getD_self]

theorem task_model_copy_idem (e : Task) (d : TaskUpdate) :
    (e.model_copy d).model_copy d = e.model_copy d := by
  simp [Task.model_copy, opt_getD_self]

theorem task_drop_model_copy (e : Task) (d : TaskUpdate)
    (ha : e.agent = none) (hr : e.repository_name = none)
    (hb : e.branch_name = none) :
    ((e.model_copy d).drop_dispatch).model_copy d = e.model_copy d := by
  simp [Task.model_copy, Task.drop_dispatch, opt_getD_self, ha, hr, hb]

theorem except_bind_ok {α β : Type} (x : α) (f : α → Except Err β) :
    (Except.ok x : Except Err α) >>= f = f x := rfl

theorem list_stories_ok (st : SqliteState) (s : String) (hs : ¬(s = ""))
    (hv : ∀ r ∈ st.stories, (status_priority r.status).isSome) :
    SqliteState.list_stories st (some s) =
      .ok ((st.stories.filter (fun r => r.status = s)).map story_of_row) := by
  show rows_to_stories
      (if s = "" then st.stories else st.stories.filter (fun r => r.status = s)) = _
  rw [if_neg hs]
  exact rows_to_stories_ok _ (fun r hr => hv r (List.mem_of_mem_filter hr))

theorem list_tasks_ok (st : SqliteState) (a b : Option String)
    (hv : ∀ r ∈ st.tasks, (status_priority r.status).isSome) :
    SqliteState.list_tasks st a b =
      .ok ((st.tasks.filter (taskFilterCond a b)).map task_of_row) :=
  rows_to_tasks_ok _ (fun r hr => hv r (List.mem_of_mem_filter hr))

theorem mem_filter_map_task (rows : List TaskRow) (p : TaskRow → Bool)
    (q : Task → Prop) (hpq : ∀ r, p r = true ↔ q (task_of_row r)) (t : Task) :
    (t ∈ (rows.filter p).map task_of_row) ↔
      (t ∈ rows.map task_of_row ∧ q t) := by
  constructor
  · intro ht
    obtain ⟨r, hr, hrt⟩ := List.mem_map.mp ht
    have hparts := List.mem_filter.mp hr
    subst hrt
    exact ⟨List.mem_map.mpr ⟨r, hparts.1, rfl⟩, (hpq r).mp hparts.2⟩
  · rintro ⟨ht, hq⟩
    obtain ⟨r, hr, hrt⟩ := List.mem_map.mp ht
    subst hrt
    exact List.mem_map.mpr ⟨r, List.mem_filter.mpr ⟨hr, (hpq r).mpr hq⟩, rfl⟩

/-! Claim theorems. -/

/-- C1: evaluating the code at the failing input. Creating a task through
the service with `agent`, `repository_name` and `branch_name` supplied
returns a Task carrying them, but the SQLite `task` table has no columns
for these fields, so a subsequent `get_task(id)` through the SQLite store
backend returns a Task with all three reset to `None` — the round trip
does not preserve all supplied fields, contradicting the claim. -/
theorem create_task_sqlite_roundtrip_drops_dispatch_fields :
    TaskService.create_task sqliteBackend { stories := [], tasks := [] }
        { name? := some "Login form", description? := some "x",
          agent? := some "dev-agent", repository_name? := some "repo",
          branch_name? := some "main" } "t1" =
      .ok ({ id := "t1", name := "Login form", description := "x",
             agent := some "dev-agent", status := "pending",
             repository_name := some "repo", branch_name := some "main",
             story_id := none, checklist := [] },
           { stories := [],
             tasks := [{ id := "t1", name := "Login form", status := "pending",
                         description := "x", checklist := some [],
                         story_id := none }] }) ∧
    SqliteState.get_task
        { stories := [],
          tasks := [{ id := "t1", name := "Login form", status := "pending",
                      description := "x", checklist := some [],
                      story_id := none }] } "t1" =
      .ok { id := "t1", name := "Login form", description := "x",
            agent := none, status := "pending", repository_name := none,
            branch_name := none, story_id := none, checklist := [] } ∧
    ¬((some "dev-agent" : Option String) = none) := by
  exact ⟨rfl, rfl, fun h => Option.noConfusion h⟩

/-- C7: the chat queue is FIFO with a pending indicator —
`enqueue_message` appends and returns exactly
`processing || queue non-empty`, `next_message` pops the oldest message
or returns null on an empty queue; and the concrete scenario from the
empty non-processing state: enqueue "a" returns false, enqueue "b"
returns true, then draining yields "a", "b", null. -/
theorem chat_queue_fifo_with_pending_indicator :
    (∀ (st : ChatServiceState) (m : String),
        st.enqueue_message m =
          (st.processing || !st.messages.isEmpty,
            { st with messages := st.messages ++ [m] })) ∧
    (∀ p : Bool,
        ChatServiceState.next_message { processing := p, messages := [] } =
          (none, { processing := p, messages := [] })) ∧
    (∀ (p : Bool) (m : String) (rest : List String),
        ChatServiceState.next_message { processing := p, messages := m :: rest } =
          (some m, { processing := p, messages := rest })) ∧
    ((ChatServiceState.init.enqueue_message "a").1 = false ∧
      (((ChatServiceState.init.enqueue_message "a").2).enqueue_message "b").1 = true ∧
      ((((ChatServiceState.init.enqueue_message "a").2).enqueue_message "b").2).next_message =
        (some "a", { processing := false, messages := ["b"] }) ∧
      ChatServiceState.next_message { processing := false, messages := ["b"] } =
        (some "b", { processing := false, messages := [] }) ∧
      ChatServiceState.next_message { processing := false, messages := [] } =
        (none, { processing := false, messages := [] })) := by
  refine ⟨fun st m => rfl, fun p => rfl, fun p m rest => rfl, ?_⟩
  decide

/-- C10: `list_tasks` treats an empty-string `story_id` (or `status`)
filter as absent — the `if status:` / `if story_id:` truthiness tests
skip the condition — so the result equals the call without that
filter. -/
theorem list_tasks_empty_string_filter_treated_absent :
    ∀ (st : SqliteState) (status other : Option String),
      SqliteState.list_tasks st status (some "") =
        SqliteState.list_tasks st status none ∧
      SqliteState.list_tasks st (some "") other =
        SqliteState.list_tasks st none other := by
  intro st status other
  refine ⟨?_, ?_⟩
  · unfold SqliteState.list_tasks
    have h : taskFilterCond status (some "") = taskFilterCond status none := by
      funext r
      cases status <;> simp [taskFilterCond]
    rw [h]
  · unfold SqliteState.list_tasks
    have h : taskFilterCond (some "") other = taskFilterCond none other := by
      funext r
      cases other <;> simp [taskFilterCond]
    rw [h]

/-- C2 counterexample: on a store holding a pending story "A" and an
in-progress story "B", the code returns the in-progress story first
(`status_search` iterates `in_progress, ready, planning, pending`),
while the claim's enumeration-order concatenation would return the
pending story first. -/
theorem list_non_completed_stories_order_cex :
    list_non_completed_stories sqliteBackend
        { stories := [{ id := "s1", name := "A", description := "d", status := "pending" },
                      { id := "s2", name := "B", description := "d", status := "in_progress" }],
          tasks := [] } =
      .ok [{ id := "s2", name := "B", description := "d", status := "in_progress" },
           { id := "s1", name := "A", description := "d", status := "pending" }] ∧
    list_non_completed_stories_spec sqliteBackend
        { stories := [{ id := "s1", name := "A", description := "d", status := "pending" },
                      { id := "s2", name := "B", description := "d", status := "in_progress" }],
          tasks := [] } =
      .ok [{ id := "s1", name := "A", description := "d", status := "pending" },
           { id := "s2", name := "B", description := "d", status := "in_progress" }] ∧
    ¬(([{ id := "s2", name := "B", description := "d", status := "in_progress" },
        { id := "s1", name := "A", description := "d", status := "pending" }] : List Story) =
      [{ id := "s1", name := "A", description := "d", status := "pending" },
       { id := "s2", name := "B", description := "d", status := "in_progress" }]) := by
  decide

/-- C2 (amended): `list_non_completed_stories` returns the concatenation
of `list_stories(status)` for each non-terminal status in reverse
enumeration order — `in_progress`, then `ready`, then `planning`, then
`pending` — without deduplication and without globally sorting the
combined result. -/
theorem list_non_completed_stories_reverse_enum (st : SqliteState)
    (hv : ∀ r ∈ st.stories, (status_priority r.status).isSome) :
    list_non_completed_stories sqliteBackend st =
      .ok ((st.stories.filter (fun r => r.status = "in_progress") ++
            st.stories.filter (fun r => r.status = "ready") ++
            st.stories.filter (fun r => r.status = "planning") ++
            st.stories.filter (fun r => r.status = "pending")).map story_of_row) := by
  have h1 := list_stories_ok st "in_progress" (by decide) hv
  have h2 := list_stories_ok st "ready" (by decide) hv
  have h3 := list_stories_ok st "planning" (by decide) hv
  have h4 := list_stories_ok st "pending" (by decide) hv
  simp only [list_non_completed_stories, list_non_completed_loop, sqliteBackend,
    h1, h2, h3, h4, except_bind_ok]
  simp [List.map_append, List.append_assoc]

/-- C2 witness: the amended theorem applied at a concrete two-story
store. -/
theorem list_non_completed_stories_reverse_enum_witness :
    list_non_completed_stories sqliteBackend
        { stories := [{ id := "s1", name := "A", description := "d", status := "pending" },
                      { id := "s2", name := "B", description := "d", status := "ready" }],
          tasks := [] } =
      .ok [{ id := "s2", name := "B", description := "d", status := "ready" },
           { id := "s1", name := "A", description := "d", status := "pending" }] := by
  rw [list_non_completed_stories_reverse_enum _ (by decide)]
  decide

/-- C4: stories and tasks compare by the pair (status priority, name)
ascending — `lt a b` is true exactly when `a`'s priority is lower, or the
priorities tie and `a.name < b.name` — and sorting concrete stories with
statuses completed, pending, ready places the initial status `pending`
first, then `ready`, then `completed`. -/
theorem story_task_order_is_lex :
    (∀ (a b : Story) (p q : Nat),
        status_priority a.status = some p → status_priority b.status = some q →
        (Story.lt a b = some true ↔ (p < q ∨ (p = q ∧ a.name < b.name)))) ∧
    (∀ (a b : Task) (p q : Nat),
        status_priority a.status = some p → status_priority b.status = some q →
        (Task.lt a b = some true ↔ (p < q ∨ (p = q ∧ a.name < b.name)))) ∧
    sortStories
        [{ id := "1", name := "a", description := "d", status := "completed" },
         { id := "2", name := "a", description := "d", status := "pending" },
         { id := "3", name := "a", description := "d", status := "ready" }] =
      [{ id := "2", name := "a", description := "d", status := "pending" },
       { id := "3", name := "a", description := "d", status := "ready" },
       { id := "1", name := "a", description := "d", status := "completed" }] := by
  refine ⟨?_, ?_, by decide⟩
  · intro a b p q hp hq
    unfold Story.lt
    by_cases h : a.status = b.status
    · rw [if_pos h]
      have hpq : p = q := by
        rw [h] at hp
        rw [hp] at hq
        exact Option.some_inj.mp hq
      subst hpq
      simp only [Option.some_inj, decide_eq_true_eq]
      constructor
      · intro hn
        exact Or.inr ⟨by trivial, hn⟩
      · rintro (hlt | ⟨-, hn⟩)
        · exact absurd hlt (lt_irrefl p)
        · exact hn
    · rw [if_neg h]
      have hne : ¬(p = q) := fun hpq => h (status_priority_inj hp (hpq ▸ hq))
      rw [hp, hq]
      simp only [Option.bind_eq_bind, Option.some_bind, pure,
        Option.some_inj, decide_eq_true_eq]
      constructor
      · exact Or.inl
      · rintro (hlt | ⟨hpq, -⟩)
        · exact hlt
        · exact absurd hpq hne
  · intro a b p q hp hq
    unfold Task.lt
    by_cases h : a.status = b.status
    · rw [if_pos h]
      have hpq : p = q := by
        rw [h] at hp
        rw [hp] at hq
        exact Option.some_inj.mp hq
      subst hpq
      simp only [Option.some_inj, decide_eq_true_eq]
      constructor
      · intro hn
        exact Or.inr ⟨by trivial, hn⟩
      · rintro (hlt | ⟨-, hn⟩)
        · exact absurd hlt (lt_irrefl p)
        · exact hn
    · rw [if_neg h]
      have hne : ¬(p = q) := fun hpq => h (status_priority_inj hp (hpq ▸ hq))
      rw [hp, hq]
      simp only [Option.bind_eq_bind, Option.some_bind, pure,
        Option.some_inj, decide_eq_true_eq]
      constructor
      · exact Or.inl
      · rintro (hlt | ⟨hpq, -⟩)
        · exact hlt
        · exact absurd hpq hne

/-- C4 witness: the comparison characterization applied at concrete
stories with statuses pending (priority 0) and ready (priority 2). -/
theorem story_task_order_is_lex_witness :
    Story.lt { id := "1", name := "a", description := "d", status := "pending" }
        { id := "2", name := "z", description := "d", status := "ready" } =
      some true :=
  (story_task_order_is_lex.1
      { id := "1", name := "a", description := "d", status := "pending" }
      { id := "2", name := "z", description := "d", status := "ready" }
      0 2 rfl rfl).mpr (Or.inl (by decide))

/-- C5 counterexample: with one stored task whose `story_id` is NULL,
`list_tasks(story_id="")` returns that task — the empty-string filter is
skipped by the `if story_id:` truthiness test — although its `story_id`
does not equal `""`, so the result is not "exactly the tasks whose
story_id equals the supplied value" for every argument combination. -/
theorem list_tasks_filter_cex :
    SqliteState.list_tasks
        { stories := [],
          tasks := [{ id := "t1", name := "N", status := "pending",
                      description := "d", checklist := some [],
                      story_id := none }] } none (some "") =
      .ok [{ id := "t1", name := "N", description := "d", agent := none,
             status := "pending", repository_name := none,
             branch_name := none, story_id := none, checklist := [] }] ∧
    ¬(({ id := "t1", name := "N", description := "d", agent := none,
         status := "pending", repository_name := none, branch_name := none,
         story_id := none, checklist := [] } : Task).story_id = some "") := by
  decide

/-- C5 (amended): for non-empty filter values, `list_tasks` returns
exactly the stored tasks matching all supplied filters — status only,
story_id only, their conjunction when both are given — and with no
filters it returns the full stored task set; an empty-string filter value
is treated as an absent filter (see the C10 theorem). -/
theorem list_tasks_filter_semantics (st : SqliteState)
    (hv : ∀ r ∈ st.tasks, (status_priority r.status).isSome) :
    SqliteState.list_tasks st none none = .ok (st.tasks.map task_of_row) ∧
    (∀ S : String, ¬(S = "") →
      ∃ l, SqliteState.list_tasks st (some S) none = .ok l ∧
        ∀ t, t ∈ l ↔ (t ∈ st.tasks.map task_of_row ∧ t.status = S)) ∧
    (∀ X : String, ¬(X = "") →
      ∃ l, SqliteState.list_tasks st none (some X) = .ok l ∧
        ∀ t, t ∈ l ↔ (t ∈ st.tasks.map task_of_row ∧ t.story_id = some X)) ∧
    (∀ S X : String, ¬(S = "") → ¬(X = "") →
      ∃ l, SqliteState.list_tasks st (some S) (some X) = .ok l ∧
        ∀ t, t ∈ l ↔ (t ∈ st.tasks.map task_of_row ∧
          t.status = S ∧ t.story_id = some X)) := by
  refine ⟨?_, ?_, ?_, ?_⟩
  · have hall := list_tasks_ok st none none hv
    have hcond : taskFilterCond none none = fun _ => true := by
      funext r
      simp [taskFilterCond]
    rw [hcond, List.filter_true] at hall
    exact hall
  · intro S hS
    refine ⟨(st.tasks.filter (taskFilterCond (some S) none)).map task_of_row,
      list_tasks_ok st (some S) none hv, ?_⟩
    intro t
    apply mem_filter_map_task
    intro r
    simp [taskFilterCond, hS, task_of_row]
  · intro X hX
    refine ⟨(st.tasks.filter (taskFilterCond none (some X))).map task_of_row,
      list_tasks_ok st none (some X) hv, ?_⟩
    intro t
    apply mem_filter_map_task
    intro r
    simp [taskFilterCond, hX, task_of_row]
  · intro S X hS hX
    refine ⟨(st.tasks.filter (taskFilterCond (some S) (some X))).map task_of_row,
      list_tasks_ok st (some S) (some X) hv, ?_⟩
    intro t
    apply mem_filter_map_task
    intro r
    simp [taskFilterCond, hS, hX, task_of_row]

/-- C5 witness: the amended filter semantics applied at a concrete store
with both filters supplied. -/
theorem list_tasks_filter_semantics_witness :
    ∃ l, SqliteState.list_tasks
        { stories := [],
          tasks := [{ id := "t1", name := "N", status := "pending",
                      description := "d", checklist := some [],
                      story_id := some "s1" },
                    { id := "t2", name := "M", status := "ready",
                      description := "d", checklist := some [],
                      story_id := some "s1" }] } (some "pending") (some "s1") =
      .ok l ∧
      ∀ t, t ∈ l ↔
        (t ∈ ([{ id := "t1", name := "N", status := "pending",
                 description := "d", checklist := some [],
                 story_id := some "s1" },
               { id := "t2", name := "M", status := "ready",
                 description := "d", checklist := some [],
                 story_id := some "s1" }] : List TaskRow).map task_of_row ∧
          t.status = "pending" ∧ t.story_id = some "s1") :=
  (list_tasks_filter_semantics _ (by decide)).2.2.2 "pending" "s1"
    (by decide) (by decide)

/-- C6: `get_story(id)` / `get_task(id)` fail with the NotFound error
kind exactly when no stored row carries that id, and when the row lookup
finds a row they return the corresponding entity without error. -/
theorem get_story_get_task_notfound_iff (st : SqliteState) (id : String)
    (hs : ∀ r ∈ st.stories, (status_priority r.status).isSome)
    (ht : ∀ r ∈ st.tasks, (status_priority r.status).isSome) :
    (SqliteState.get_story st id = .error (.storyNotFound id) ↔
      ∀ r ∈ st.stories, ¬(r.id = id)) ∧
    (∀ r, st.stories.find? (fun x => x.id = id) = some r →
      SqliteState.get_story st id = .ok (story_of_row r)) ∧
    (SqliteState.get_task st id = .error (.taskNotFound id) ↔
      ∀ r ∈ st.tasks, ¬(r.id = id)) ∧
    (∀ r, st.tasks.find? (fun x => x.id = id) = some r →
      SqliteState.get_task st id = .ok (task_of_row r)) := by
  have hstory1 : SqliteState.get_story st id = .error (.storyNotFound id) ↔
      ∀ r ∈ st.stories, ¬(r.id = id) := by
    unfold SqliteState.get_story
    cases hfind : st.stories.find? (fun r => r.id = id) with
    | none =>
      simp only [hfind]
      constructor
      · intro _ r hr
        have h := List.find?_eq_none.mp hfind r hr
        simpa using h
      · intro _
        trivial
    | some r =>
      have hmem := List.mem_of_find?_eq_some hfind
      have hid : r.id = id := by simpa using List.find?_some hfind
      have hvr := hs r hmem
      simp only [hfind, row_to_story, hvr, if_true]
      constructor
      · intro hcon
        exact Except.noConfusion hcon
      · intro hall
        exact absurd hid (hall r hmem)
  have hstory2 : ∀ r, st.stories.find? (fun x => x.id = id) = some r →
      SqliteState.get_story st id = .ok (story_of_row r) := by
    intro r hr
    have hvr := hs r (List.mem_of_find?_eq_some hr)
    unfold SqliteState.get_story
    simp only [hr, row_to_story, hvr, if_true]
  have htask1 : SqliteState.get_task st id = .error (.taskNotFound id) ↔
      ∀ r ∈ st.tasks, ¬(r.id = id) := by
    unfold SqliteState.get_task
    cases hfind : st.tasks.find? (fun r => r.id = id) with
    | none =>
      simp only [hfind]
      constructor
      · intro _ r hr
        have h := List.find?_eq_none.mp hfind r hr
        simpa using h
      · intro _
        trivial
    | some r =>
      have hmem := List.mem_of_find?_eq_some hfind
      have hid : r.id = id := by simpa using List.find?_some hfind
      have hvr := ht r hmem
      simp only [hfind, row_to_task, hvr, if_true]
      constructor
      · intro hcon
        exact Except.noConfusion hcon
      · intro hall
        exact absurd hid (hall r hmem)
  have htask2 : ∀ r, st.tasks.find? (fun x => x.id = id) = some r →
      SqliteState.get_task st id = .ok (task_of_row r) := by
    intro r hr
    have hvr := ht r (List.mem_of_find?_eq_some hr)
    unfold SqliteState.get_task
    simp only [hr, row_to_task, hvr, if_true]
  exact ⟨hstory1, hstory2, htask1, htask2⟩

/-- C6 witness: both directions at a concrete one-story store — a missing
id fails with `storyNotFound`, a present id returns the stored story. -/
theorem get_story_get_task_notfound_iff_witness :
    SqliteState.get_story
        { stories := [{ id := "s1", name := "A", description := "d",
                        status := "pending" }],
          tasks := [] } "zz" =
      .error (.storyNotFound "zz") ∧
    SqliteState.get_story
        { stories := [{ id := "s1", name := "A", description := "d",
                        status := "pending" }],
          tasks := [] } "s1" =
      .ok { id := "s1", name := "A", description := "d", status := "pending" } :=
  ⟨((get_story_get_task_notfound_iff _ "zz" (by decide) (by decide)).1).mpr
      (by decide),
    (get_story_get_task_notfound_iff _ "s1" (by decide) (by decide)).2.1
      { id := "s1", name := "A", description := "d", status := "pending" }
      (by decide)⟩

/-- C8: `list_unassigned_tasks` returns exactly the stored tasks whose
`story_id` is null — within the full task set it is the complement of
the tasks with a non-null `story_id`. -/
theorem list_unassigned_tasks_complement (st : SqliteState)
    (hv : ∀ r ∈ st.tasks, (status_priority r.status).isSome) :
    ∃ full unassigned,
      SqliteState.list_tasks st none none = .ok full ∧
      TaskService.list_unassigned_tasks sqliteBackend st = .ok unassigned ∧
      (∀ t, t ∈ unassigned ↔ (t ∈ full ∧ t.story_id = none)) ∧
      (∀ t, (t ∈ full ∧ ¬(t ∈ unassigned)) ↔
        (t ∈ full ∧ ¬(t.story_id = none))) := by
  have hall := list_tasks_ok st none none hv
  have hcond : taskFilterCond none none = fun _ => true := by
    funext r
    simp [taskFilterCond]
  rw [hcond, List.filter_true] at hall
  refine ⟨st.tasks.map task_of_row,
    (st.tasks.map task_of_row).filter (fun t => t.story_id.isNone),
    hall, ?_, ?_, ?_⟩
  · simp only [TaskService.list_unassigned_tasks, sqliteBackend, hall,
      except_bind_ok]
  · intro t
    rw [List.mem_filter]
    simp
  · intro t
    constructor
    · rintro ⟨htf, hnin⟩
      refine ⟨htf, fun hnone => hnin ?_⟩
      rw [List.mem_filter]
      exact ⟨htf, by simp [hnone]⟩
    · rintro ⟨htf, hne⟩
      refine ⟨htf, fun hin => hne ?_⟩
      have h := (List.mem_filter.mp hin).2
      simpa using h

/-- C8 witness: the complement characterization applied at a concrete
store with one assigned and one unassigned task. -/
theorem list_unassigned_tasks_complement_witness :
    ∃ full unassigned,
      SqliteState.list_tasks
          { stories := [],
            tasks := [{ id := "t1", name := "Login", status := "pending",
                        description := "d", checklist := some [],
                        story_id := some "s1" },
                      { id := "t2", name := "Orphan", status := "pending",
                        description := "d", checklist := some [],
                        story_id := none }] } none none = .ok full ∧
      TaskService.list_unassigned_tasks sqliteBackend
          { stories := [],
            tasks := [{ id := "t1", name := "Login", status := "pending",
                        description := "d", checklist := some [],
                        story_id := some "s1" },
                      { id := "t2", name := "Orphan", status := "pending",
                        description := "d", checklist := some [],
                        story_id := none }] } = .ok unassigned ∧
      (∀ t, t ∈ unassigned ↔ (t ∈ full ∧ t.story_id = none)) ∧
      (∀ t, (t ∈ full ∧ ¬(t ∈ unassigned)) ↔
        (t ∈ full ∧ ¬(t.story_id = none))) :=
  list_unassigned_tasks_complement _ (by decide)

theorem except_bind_error {α β : Type} (err : Err) (f : α → Except Err β) :
    (Except.error err : Except Err α) >>= f = .error err := rfl

/-- C3 counterexample: updating a stored task with payload
`{agent: "dev"}` returns the merged task carrying `agent = "dev"`, but
the store has no `agent` column, so the subsequent `get_task` returns a
task with `agent = None` — not the merged entity the claim promises. -/
theorem update_task_merge_not_persisted_cex :
    TaskService.update_task sqliteBackend
        { stories := [],
          tasks := [{ id := "t1", name := "Login", status := "pending",
                      description := "d", checklist := some [],
                      story_id := none }] }
        "t1" { agent? := some (some "dev") } =
      .ok ({ id := "t1", name := "Login", description := "d",
             agent := some "dev", status := "pending",
             repository_name := none, branch_name := none,
             story_id := none, checklist := [] },
           { stories := [],
             tasks := [{ id := "t1", name := "Login", status := "pending",
                         description := "d", checklist := some [],
                         story_id := none }] }) ∧
    SqliteState.get_task
        { stories := [],
          tasks := [{ id := "t1", name := "Login", status := "pending",
                      description := "d", checklist := some [],
                      story_id := none }] } "t1" =
      .ok { id := "t1", name := "Login", description := "d",
            agent := none, status := "pending", repository_name := none,
            branch_name := none, story_id := none, checklist := [] } ∧
    ¬(({ id := "t1", name := "Login", description := "d", agent := none,
         status := "pending", repository_name := none, branch_name := none,
         story_id := none, checklist := [] } : Task) =
      { id := "t1", name := "Login", description := "d", agent := some "dev",
        status := "pending", repository_name := none, branch_name := none,
        story_id := none, checklist := [] }) := by
  decide

/-- C3 (amended): for valid partial-update payloads (present status
inside the enumeration), `update_story`/`update_task` return the merge of
the existing entity with the payload — payload fields where present, the
existing entity's fields elsewhere — and are idempotent: repeating the
same update returns the same entity and leaves the same store state. A
subsequent get returns the merged story exactly; for tasks it returns
the merged task with `agent`, `repository_name` and `branch_name` reset
to `None`, because the `task` table does not persist them. -/
theorem update_merge_persist_idempotent (st : SqliteState) (id : String) :
    (∀ (e : Story) (d : StoryUpdate),
      SqliteState.get_story st id = .ok e →
      (∀ s, d.status? = some s → (status_priority s).isSome) →
      TaskService.update_story sqliteBackend st id d =
          .ok (e.model_copy d, st.put_story (e.model_copy d)) ∧
        (e.model_copy d).id = e.id ∧
        (e.model_copy d).name = d.name?.getD e.name ∧
        (e.model_copy d).description = d.description?.getD e.description ∧
        (e.model_copy d).status = d.status?.getD e.status ∧
        SqliteState.get_story (st.put_story (e.model_copy d)) id =
          .ok (e.model_copy d) ∧
        TaskService.update_story sqliteBackend
            (st.put_story (e.model_copy d)) id d =
          .ok (e.model_copy d, st.put_story (e.model_copy d))) ∧
    (∀ (e : Task) (d : TaskUpdate),
      SqliteState.get_task st id = .ok e →
      (∀ s, d.status? = some s → (status_priority s).isSome) →
      TaskService.update_task sqliteBackend st id d =
          .ok (e.model_copy d, st.put_task (e.model_copy d)) ∧
        (e.model_copy d).id = e.id ∧
        (e.model_copy d).name = d.name?.getD e.name ∧
        (e.model_copy d).description = d.description?.getD e.description ∧
        (e.model_copy d).status = d.status?.getD e.status ∧
        (e.model_copy d).agent = d.agent?.getD e.agent ∧
        (e.model_copy d).story_id = d.story_id?.getD e.story_id ∧
        (e.model_copy d).checklist = d.checklist?.getD e.checklist ∧
        SqliteState.get_task (st.put_task (e.model_copy d)) id =
          .ok ((e.model_copy d).drop_dispatch) ∧
        TaskService.update_task sqliteBackend
            (st.put_task (e.model_copy d)) id d =
          .ok (e.model_copy d, st.put_task (e.model_copy d))) := by
  constructor
  · intro e d hget hd
    obtain ⟨hid, hv⟩ := get_story_ok_shape st id e hget
    have hvu : (status_priority (Story.model_copy e d).status).isSome := by
      cases hds : d.status? with
      | none => simpa [Story.model_copy, hds] using hv
      | some s => simpa [Story.model_copy, hds] using hd s hds
    have hupd1 : TaskService.update_story sqliteBackend st id d =
        .ok (e.model_copy d, st.put_story (e.model_copy d)) := by
      simp only [TaskService.update_story, sqliteBackend, hget, except_bind_ok]
    have hget1 : SqliteState.get_story (st.put_story (e.model_copy d)) id =
        .ok (e.model_copy d) := by
      have h := get_story_put_story st (e.model_copy d) hvu
      rw [show (Story.model_copy e d).id = id from hid] at h
      exact h
    have hupd2 : TaskService.update_story sqliteBackend
        (st.put_story (e.model_copy d)) id d =
        .ok (e.model_copy d, st.put_story (e.model_copy d)) := by
      simp only [TaskService.update_story, sqliteBackend, hget1, except_bind_ok,
        story_model_copy_idem, put_story_put_story]
    exact ⟨hupd1, rfl, rfl, rfl, rfl, hget1, hupd2⟩
  · intro e d hget hd
    obtain ⟨hid, hv, ha, hr, hb⟩ := get_task_ok_shape st id e hget
    have hvu : (status_priority (Task.model_copy e d).status).isSome := by
      cases hds : d.status? with
      | none => simpa [Task.model_copy, hds] using hv
      | some s => simpa [Task.model_copy, hds] using hd s hds
    have hupd1 : TaskService.update_task sqliteBackend st id d =
        .ok (e.model_copy d, st.put_task (e.model_copy d)) := by
      simp only [TaskService.update_task, sqliteBackend, hget, except_bind_ok]
    have hget1 : SqliteState.get_task (st.put_task (e.model_copy d)) id =
        .ok ((e.model_copy d).drop_dispatch) := by
      have h := get_task_put_task st (e.model_copy d) hvu
      rw [show (Task.model_copy e d).id = id from hid] at h
      exact h
    have hupd2 : TaskService.update_task sqliteBackend
        (st.put_task (e.model_copy d)) id d =
        .ok (e.model_copy d, st.put_task (e.model_copy d)) := by
      simp only [TaskService.update_task, sqliteBackend, hget1, except_bind_ok,
        task_drop_model_copy e d ha hr hb, put_task_put_task]
    exact ⟨hupd1, rfl, rfl, rfl, rfl, rfl, rfl, rfl, hget1, hupd2⟩

/-- C3 witness: the amended merge semantics applied at a concrete
one-story store with a name-only payload. -/
theorem update_merge_persist_idempotent_witness :
    TaskService.update_story sqliteBackend
        { stories := [{ id := "s1", name := "Auth", description := "d",
                        status := "pending" }],
          tasks := [] }
        "s1" { name? := some "Auth2" } =
      .ok ({ id := "s1", name := "Auth2", description := "d",
             status := "pending" },
           { stories := [{ id := "s1", name := "Auth2", description := "d",
                           status := "pending" }],
             tasks := [] }) :=
  (((update_merge_persist_idempotent
      { stories := [{ id := "s1", name := "Auth", description := "d",
                      status := "pending" }],
        tasks := [] } "s1").1
      { id := "s1", name := "Auth", description := "d", status := "pending" }
      { name? := some "Auth2" } (by decide)
      (fun s hs => Option.noConfusion hs)).1).trans (by decide)

/-- C9 counterexample: `update_task` with payload
`{repository_name: "org/repo"}` raises no error and returns the overlaid
task, but the overlaid value is not persisted — the stored row has no
such column and `get_task` reads the field back as `None` — so the claim
that the overlaid values are persisted as given fails for this field. -/
theorem update_task_raw_values_not_persisted_cex :
    TaskService.update_task sqliteBackend
        { stories := [],
          tasks := [{ id := "t2", name := "Deploy", status := "ready",
                      description := "d", checklist := some [],
                      story_id := none }] }
        "t2" { repository_name? := some (some "org/repo") } =
      .ok ({ id := "t2", name := "Deploy", description := "d",
             agent := none, status := "ready",
             repository_name := some "org/repo", branch_name := none,
             story_id := none, checklist := [] },
           { stories := [],
             tasks := [{ id := "t2", name := "Deploy", status := "ready",
                         description := "d", checklist := some [],
                         story_id := none }] }) ∧
    SqliteState.get_task
        { stories := [],
          tasks := [{ id := "t2", name := "Deploy", status := "ready",
                      description := "d", checklist := some [],
                      story_id := none }] } "t2" =
      .ok { id := "t2", name := "Deploy", description := "d",
            agent := none, status := "ready", repository_name := none,
            branch_name := none, story_id := none, checklist := [] } ∧
    ¬((none : Option String) = some "org/repo") := by
  decide

/-- C9 (amended): updates perform no field validation — for every
existing entity and every payload, including status values outside the
enumeration, `update_story`/`update_task` raise no ValidationError and
write the overlaid raw values into the entity's row (the story columns
and the task's id/name/status/description/checklist/story_id columns;
the task's agent, repository_name and branch_name are not persisted,
the table having no such columns) — unlike `create_story`/`create_task`,
where entity construction validates and a status outside the
enumeration fails with ValidationError. -/
theorem update_unvalidated_create_validated (st : SqliteState) (id : String) :
    (∀ (e : Story) (d : StoryUpdate),
      SqliteState.get_story st id = .ok e →
      TaskService.update_story sqliteBackend st id d =
          .ok (e.model_copy d, st.put_story (e.model_copy d)) ∧
        (st.put_story (e.model_copy d)).stories.find? (fun r => r.id = id) =
          some { id := id, name := (e.model_copy d).name,
                 description := (e.model_copy d).description,
                 status := (e.model_copy d).status }) ∧
    (∀ (e : Task) (d : TaskUpdate),
      SqliteState.get_task st id = .ok e →
      TaskService.update_task sqliteBackend st id d =
          .ok (e.model_copy d, st.put_task (e.model_copy d)) ∧
        (st.put_task (e.model_copy d)).tasks.find? (fun r => r.id = id) =
          some { id := id, name := (e.model_copy d).name,
                 status := (e.model_copy d).status,
                 description := (e.model_copy d).description,
                 checklist := some (e.model_copy d).checklist,
                 story_id := (e.model_copy d).story_id }) ∧
    (∀ (d : StoryCreateData) (genId s : String),
      d.status? = some s → status_priority s = none →
      TaskService.create_story sqliteBackend st d genId =
        .error .validationError) ∧
    (∀ (d : TaskCreateData) (genId s : String),
      d.status? = some s → status_priority s = none →
      TaskService.create_task sqliteBackend st d genId =
        .error .validationError) := by
  refine ⟨?_, ?_, ?_, ?_⟩
  · intro e d hget
    have hid : e.id = id := (get_story_ok_shape st id e hget).1
    subst hid
    constructor
    · simp only [TaskService.update_story, sqliteBackend, hget, except_bind_ok]
    · have hfind : List.find? (fun x : StoryRow => x.id = e.id)
          (upsertBy StoryRow.id st.stories
            { id := (Story.model_copy e d).id,
              name := (Story.model_copy e d).name,
              description := (Story.model_copy e d).description,
              status := (Story.model_copy e d).status }) =
          some { id := (Story.model_copy e d).id,
                 name := (Story.model_copy e d).name,
                 description := (Story.model_copy e d).description,
                 status := (Story.model_copy e d).status } :=
        find?_upsertBy StoryRow.id st.stories
          { id := (Story.model_copy e d).id,
            name := (Story.model_copy e d).name,
            description := (Story.model_copy e d).description,
            status := (Story.model_copy e d).status }
      exact hfind
  · intro e d hget
    have hid : e.id = id := (get_task_ok_shape st id e hget).1
    subst hid
    constructor
    · simp only [TaskService.update_task, sqliteBackend, hget, except_bind_ok]
    · have hfind : List.find? (fun x : TaskRow => x.id = e.id)
          (upsertBy TaskRow.id st.tasks
            { id := (Task.model_copy e d).id,
              name := (Task.model_copy e d).name,
              status := (Task.model_copy e d).status,
              description := (Task.model_copy e d).description,
              checklist := some (Task.model_copy e d).checklist,
              story_id := (Task.model_copy e d).story_id }) =
          some { id := (Task.model_copy e d).id,
                 name := (Task.model_copy e d).name,
                 status := (Task.model_copy e d).status,
                 description := (Task.model_copy e d).description,
                 checklist := some (Task.model_copy e d).checklist,
                 story_id := (Task.model_copy e d).story_id } :=
        find?_upsertBy TaskRow.id st.tasks
          { id := (Task.model_copy e d).id,
            name := (Task.model_copy e d).name,
            status := (Task.model_copy e d).status,
            description := (Task.model_copy e d).description,
            checklist := some (Task.model_copy e d).checklist,
            story_id := (Task.model_copy e d).story_id }
      exact hfind
  · intro d genId s hds hbad
    have hc : Story.construct d genId = .error .validationError := by
      unfold Story.construct
      cases hn : d.name? with
      | none => rfl
      | some nm =>
        cases hdc : d.description? with
        | none => rfl
        | some dsc =>
          simp [hds, hbad]
    simp only [TaskService.create_story, hc, except_bind_error]
  · intro d genId s hds hbad
    have hc : Task.construct d genId = .error .validationError := by
      unfold Task.construct
      cases hn : d.name? with
      | none => rfl
      | some nm =>
        cases hdc : d.description? with
        | none => rfl
        | some dsc =>
          simp [hds, hbad]
    simp only [TaskService.create_task, hc, except_bind_error]

/-- C9 witness: at a concrete store, an update writing the
out-of-enumeration status "bogus" succeeds and persists it raw, while a
create with the same status fails with ValidationError. -/
theorem update_unvalidated_create_validated_witness :
    TaskService.update_story sqliteBackend
        { stories := [{ id := "s1", name := "A", description := "d",
                        status := "pending" }],
          tasks := [] }
        "s1" { status? := some "bogus" } =
      .ok ({ id := "s1", name := "A", description := "d", status := "bogus" },
           { stories := [{ id := "s1", name := "A", description := "d",
                           status := "bogus" }],
             tasks := [] }) ∧
    TaskService.create_story sqliteBackend { stories := [], tasks := [] }
        { name? := some "N", description? := some "D",
          status? := some "bogus" } "g1" =
      .error .validationError :=
  ⟨(((update_unvalidated_create_validated
        { stories := [{ id := "s1", name := "A", description := "d",
                        status := "pending" }],
          tasks := [] } "s1").1
        { id := "s1", name := "A", description := "d", status := "pending" }
        { status? := some "bogus" } (by decide)).1).trans (by decide),
    (update_unvalidated_create_validated { stories := [], tasks := [] }
        "s1").2.2.1
      { name? := some "N", description? := some "D",
        status? := some "bogus" } "g1" "bogus" rfl (by decide)⟩

end CopilotTeam
